import Mathlib

/-!
Verification of the NED-reconciliation core of `app.py`: identifier cleaning
(`clean_ned_column`), duplicate detection, set reconciliation and report
building, embedded shallowly over lists of string-valued cells.
-/

set_option autoImplicit false

namespace EPECpob

/-- ASCII whitespace characters stripped by Python's `str.strip()`. -/
def wsChar (c : Char) : Bool :=
  c == ' ' || c == '\t' || c == '\n' || c == '\r' ||
    c == Char.ofNat 11 || c == Char.ofNat 12

/-- Strip leading and trailing whitespace from a character list. -/
def trimChars (l : List Char) : List Char :=
  ((l.dropWhile wsChar).reverse.dropWhile wsChar).reverse

/-- Python `str.strip()` on a string value (as used by `.str.strip()`). -/
def pyStrip (s : String) : String :=
  ⟨trimChars s.data⟩

/-- ASCII lower-casing of one character, as Python `str.lower()` does on ASCII. -/
def lowerChar (c : Char) : Char :=
  if 65 ≤ c.toNat ∧ c.toNat ≤ 90 then Char.ofNat (c.toNat + 32) else c

/-- Python `str.lower()` on a string value (as used by `.str.lower()`). -/
def pyLower (s : String) : String :=
  ⟨s.data.map lowerChar⟩

/-- Decimal digit test, the `\d` of the regex `r"\d"` on ASCII digits. -/
def isDigitChar (c : Char) : Bool :=
  decide (48 ≤ c.toNat ∧ c.toNat ≤ 57)

/-- `str.contains(r"\d")`: the value has at least one decimal digit. -/
def hasDigit (s : String) : Bool :=
  s.data.any isDigitChar

/-- The `empty_markers` set of `clean_ned_column`. -/
def markers : List String :=
  ["", "nan", "none", "null", "na", "n/a"]

/-- `mask_empty_like` for one (already stripped) value:
its lower-cased form is one of the empty markers. -/
def emptyLike (s : String) : Bool :=
  markers.contains (pyLower s)

/-! ### Basic facts about the string primitives -/

theorem dropWhile_self {α : Type} (p : α → Bool) (l : List α) :
    (l.dropWhile p).dropWhile p = l.dropWhile p := by
  induction l with
  | nil => rfl
  | cons a l ih =>
    by_cases h : p a = true
    · simp [List.dropWhile_cons, h, ih]
    · simp [List.dropWhile_cons, h]

theorem exists_append_dropWhile {α : Type} (p : α → Bool) (l : List α) :
    ∃ q, l = q ++ l.dropWhile p := by
  induction l with
  | nil => exact ⟨[], rfl⟩
  | cons a l ih =>
    by_cases h : p a = true
    · obtain ⟨q, hq⟩ := ih
      exact ⟨a :: q, by simp [List.dropWhile_cons, h, ← hq]⟩
    · exact ⟨[], by simp [List.dropWhile_cons, h]⟩

theorem head_false_of_dropWhile {α : Type} (p : α → Bool) (l : List α)
    (a : α) (as : List α) (h : l.dropWhile p = a :: as) : p a = false := by
  induction l with
  | nil => simp at h
  | cons x xs ih =>
    by_cases hx : p x = true
    · rw [List.dropWhile_cons, if_pos hx] at h
      exact ih h
    · rw [List.dropWhile_cons, if_neg hx] at h
      cases h
      exact Bool.eq_false_iff.mpr hx

theorem trimChars_idem (l : List Char) : trimChars (trimChars l) = trimChars l := by
  unfold trimChars
  set m := l.dropWhile wsChar with hm
  set t := m.reverse.dropWhile wsChar with ht
  have hdrop : t.reverse.dropWhile wsChar = t.reverse := by
    cases hr : t.reverse with
    | nil => simp
    | cons a as =>
      -- `t.reverse` is an initial segment of `m`, so its head fails `wsChar`
      obtain ⟨q, hq⟩ := exists_append_dropWhile wsChar m.reverse
      have hmrev : m = t.reverse ++ q.reverse := by
        rw [← ht] at hq
        calc m = m.reverse.reverse := (List.reverse_reverse m).symm
        _ = (q ++ t).reverse := by rw [← hq]
        _ = t.reverse ++ q.reverse := by rw [List.reverse_append]
      have hmcons : m = a :: (as ++ q.reverse) := by rw [hmrev, hr]; simp
      have hfa : wsChar a = false :=
        head_false_of_dropWhile wsChar l a (as ++ q.reverse) (by rw [← hm, hmcons])
      rw [List.dropWhile_cons, if_neg (by simp [hfa])]
  rw [hdrop, List.reverse_reverse, ht, dropWhile_self]

theorem pyStrip_idem (s : String) : pyStrip (pyStrip s) = pyStrip s :=
  congrArg String.mk (trimChars_idem s.data)

theorem pyStrip_empty : pyStrip "" = "" := rfl

/-- A digit character is left unchanged by lower-casing. -/
theorem lowerChar_of_digit (c : Char) (h : isDigitChar c = true) :
    lowerChar c = c := by
  have hc : 48 ≤ c.toNat ∧ c.toNat ≤ 57 := by
    simpa [isDigitChar] using h
  unfold lowerChar
  rw [if_neg]
  omega

/-- Empty-like values contain no digit: the markers are digit-free and
lower-casing does not move characters in or out of the digit range. -/
theorem emptyLike_no_digit (s : String) (h : emptyLike s = true) :
    hasDigit s = false := by
  have hmem : pyLower s ∈ markers := by
    simpa [emptyLike, List.contains, List.elem_iff] using h
  by_contra hd
  have hd' : hasDigit s = true := by
    cases hds : hasDigit s with
    | false => exact absurd hds hd
    | true => rfl
  obtain ⟨c, hcmem, hcdig⟩ := List.any_eq_true.mp (by simpa [hasDigit] using hd')
  have hclow : lowerChar c ∈ (pyLower s).data := by
    simp only [pyLower]
    exact List.mem_map_of_mem lowerChar hcmem
  rw [lowerChar_of_digit c hcdig] at hclow
  have hnodig : ∀ m ∈ markers, ∀ x ∈ m.data, isDigitChar x = false := by decide
  have := hnodig _ hmem c hclow
  rw [this] at hcdig
  exact Bool.noConfusion hcdig

/-! ### The table model and `clean_ned_column` -/

/-- A loaded spreadsheet table: ordered column names and ordered rows of
textual cell values (each cell already in its `str()` form), with the row
position playing the role of the default integer index. -/
structure DF where
  cols : List String
  rows : List (List String)
deriving DecidableEq, Repr

/-- The cell of a row at column position `j` (`df[col]` on one row). -/
def cell (r : List String) (j : Nat) : String :=
  r.getD j ""

/-- The keep decision of `clean_ned_column` for the row at original position
`i` of a table of `n` rows, identifier column at position `j`:
`keep_mask = ~(mask_empty_like | (mask_no_digits & approx_footer))` with the
footer zone `i >= max(0, n - 15)` (the `max` is Nat subtraction here). -/
def keepRow (n j i : Nat) (r : List String) : Bool :=
  let v := pyStrip (cell r j)
  !(emptyLike v || (!hasDigit v && decide (n - 15 ≤ i)))

/-- Row filtering of `clean_ned_column`: keep the rows passing `keepRow`, in
order, writing the stripped value back into the identifier column
(`df_clean[col_name] = s.loc[keep_mask]`). `i` is the position of the first
row of `rs` in the original table. -/
def cleanRowsAux (n j : Nat) : Nat → List (List String) → List (List String)
  | _, [] => []
  | i, r :: rs =>
    if keepRow n j i r then
      r.set j (pyStrip (cell r j)) :: cleanRowsAux n j (i + 1) rs
    else
      cleanRowsAux n j (i + 1) rs

/-- `clean_ned_column(df, col_name)`: none when the selected column does not
exist (pandas `KeyError`), otherwise the table of kept rows with the
identifier column stripped. -/
def clean_ned_column (df : DF) (col : String) : Option DF :=
  (df.cols.indexOf? col).map fun j =>
    ⟨df.cols, cleanRowsAux df.rows.length j 0 df.rows⟩

/-! ### Lemmas about the cleaning pass -/

theorem set_getD_self {α : Type} : ∀ (l : List α) (n : Nat) (d : α),
    l.set n (l.getD n d) = l
  | [], _, _ => rfl
  | _ :: _, 0, _ => rfl
  | a :: l, n + 1, d => congrArg (a :: ·) (set_getD_self l n d)

theorem cell_set_pyStrip (r : List String) (j : Nat) :
    cell (r.set j (pyStrip (cell r j))) j = pyStrip (cell r j) := by
  by_cases h : j < r.length
  · unfold cell
    rw [List.getD_eq_getElem _ _ (by simpa using h)]
    simp
  · have hle : r.length ≤ j := Nat.le_of_not_lt h
    have hc : cell r j = "" := List.getD_eq_default _ _ hle
    rw [List.set_eq_of_length_le hle, hc]
    exact pyStrip_empty.symm

theorem clean_eq (df : DF) (col : String) (j : Nat)
    (hj : df.cols.indexOf? col = some j) :
    clean_ned_column df col
      = some ⟨df.cols, cleanRowsAux df.rows.length j 0 df.rows⟩ := by
  unfold clean_ned_column
  rw [hj]
  rfl

theorem keepRow_elim (n j i : Nat) (r : List String) (hk : keepRow n j i r = true) :
    emptyLike (pyStrip (cell r j)) = false ∧
      (hasDigit (pyStrip (cell r j)) = true ∨ ¬ (n - 15 ≤ i)) := by
  simp only [keepRow, Bool.not_eq_eq_eq_not, Bool.not_true, Bool.or_eq_false_iff,
    Bool.and_eq_false_iff, Bool.not_eq_false', decide_eq_false_iff_not] at hk
  obtain ⟨h1, h2⟩ := hk
  exact ⟨h1, h2.imp id id⟩

/-- Every row of the cleaned output carries an already-stripped,
non-empty-like identifier value. -/
theorem mem_cleanRowsAux_inv (n j : Nat) :
    ∀ (rs : List (List String)) (i : Nat) (r' : List String),
      r' ∈ cleanRowsAux n j i rs →
      pyStrip (cell r' j) = cell r' j ∧ emptyLike (cell r' j) = false := by
  intro rs
  induction rs with
  | nil => intro i r' h; simp [cleanRowsAux] at h
  | cons r rs ih =>
    intro i r' h
    by_cases hk : keepRow n j i r = true
    · rw [cleanRowsAux, if_pos hk] at h
      rcases List.mem_cons.mp h with heq | hmem
      · subst heq
        rw [cell_set_pyStrip, pyStrip_idem]
        exact ⟨rfl, (keepRow_elim n j i r hk).1⟩
      · exact ih (i + 1) r' hmem
    · rw [cleanRowsAux, if_neg hk] at h
      exact ih (i + 1) r' h

/-- A row whose keep decision is positive appears in the cleaned output,
with its identifier cell stripped. -/
theorem set_mem_cleanRowsAux (n j : Nat) :
    ∀ (rs : List (List String)) (i k : Nat) (r : List String),
      rs[k]? = some r → keepRow n j (i + k) r = true →
      r.set j (pyStrip (cell r j)) ∈ cleanRowsAux n j i rs := by
  intro rs
  induction rs with
  | nil => intro i k r h _; simp at h
  | cons a as ih =>
    intro i k r h hk
    cases k with
    | zero =>
      have ha : a = r := by simpa using h
      subst ha
      rw [cleanRowsAux, if_pos (by simpa using hk)]
      exact List.mem_cons_self _ _
    | succ k' =>
      have h' : as[k']? = some r := by simpa using h
      have hk' : keepRow n j ((i + 1) + k') r = true := by
        have : (i + 1) + k' = i + (k' + 1) := by omega
        rw [this]
        exact hk
      rw [cleanRowsAux]
      by_cases hka : keepRow n j i a = true
      · rw [if_pos hka]
        exact List.mem_cons_of_mem _ (ih (i + 1) k' r h' hk')
      · rw [if_neg hka]
        exact ih (i + 1) k' r h' hk'

/-- If the footer zone covers the whole table (`n ≤ 15`), every cleaned row
has a digit in its identifier. -/
theorem hasDigit_of_mem_cleanRowsAux (n j : Nat) (hn : n - 15 = 0) :
    ∀ (rs : List (List String)) (i : Nat) (r' : List String),
      r' ∈ cleanRowsAux n j i rs → hasDigit (cell r' j) = true := by
  intro rs
  induction rs with
  | nil => intro i r' h; simp [cleanRowsAux] at h
  | cons r rs ih =>
    intro i r' h
    by_cases hk : keepRow n j i r = true
    · rw [cleanRowsAux, if_pos hk] at h
      rcases List.mem_cons.mp h with heq | hmem
      · subst heq
        rw [cell_set_pyStrip]
        rcases (keepRow_elim n j i r hk).2 with hd | habs
        · exact hd
        · exact absurd (by omega) habs
      · exact ih (i + 1) r' hmem
    · rw [cleanRowsAux, if_neg hk] at h
      exact ih (i + 1) r' h

/-- Cleaning fixes a list of rows whose identifiers are already stripped and
non-empty-like, provided every digit-free row sits outside the footer zone. -/
theorem cleanRowsAux_fix (n' j : Nat) :
    ∀ (rs : List (List String)) (i : Nat),
      (∀ r' ∈ rs, pyStrip (cell r' j) = cell r' j ∧ emptyLike (cell r' j) = false) →
      (∀ (k : Nat) (r' : List String), rs[k]? = some r' →
        hasDigit (cell r' j) = false → i + k < n' - 15) →
      cleanRowsAux n' j i rs = rs := by
  intro rs
  induction rs with
  | nil => intro i _ _; rfl
  | cons r rs ih =>
    intro i hinv hpos
    obtain ⟨hstr, hemp⟩ := hinv r (List.mem_cons_self _ _)
    have hkeep : keepRow n' j i r = true := by
      simp only [keepRow, hstr, hemp, Bool.false_or, Bool.not_eq_eq_eq_not,
        Bool.not_true, Bool.and_eq_false_iff, Bool.not_eq_false',
        decide_eq_false_iff_not]
      by_cases hd : hasDigit (cell r j) = true
      · exact Or.inl hd
      · refine Or.inr ?_
        have := hpos 0 r (by simp) (by simpa using hd)
        omega
    rw [cleanRowsAux, if_pos hkeep, hstr]
    have hset : r.set j (cell r j) = r := set_getD_self r j ""
    rw [hset]
    refine congrArg (r :: ·) (ih (i + 1) (fun r' hr' => hinv r' (List.mem_cons_of_mem _ hr')) ?_)
    intro k r' hk hd
    have := hpos (k + 1) r' (by simpa using hk) hd
    omega

/-! ### Claims about the cleaning pass -/

/-- Claim C3: every row whose identifier value, after coercion to text,
trimming and lower-casing, is one of the empty markers is removed by
cleaning, regardless of its position: no output row has an empty-like
identifier. -/
theorem empty_like_rows_removed (df : DF) (col : String) (j : Nat) (out : DF)
    (hj : df.cols.indexOf? col = some j)
    (hc : clean_ned_column df col = some out) :
    ∀ r' ∈ out.rows, emptyLike (cell r' j) = false := by
  rw [clean_eq df col j hj] at hc
  have hout : out = ⟨df.cols, cleanRowsAux df.rows.length j 0 df.rows⟩ :=
    (Option.some.inj hc).symm
  intro r' hr'
  rw [hout] at hr'
  exact (mem_cleanRowsAux_inv df.rows.length j df.rows 0 r' hr').2

/-- Claim C2: a row outside the last-15-row footer window whose stripped
identifier is digit-free is never removed by the footer rule — it is kept
whenever the empty-like rule does not fire; and when the table has fewer
than 15 rows the footer zone is the entire table, so every kept row has a
digit in its identifier. -/
theorem footer_rule_scope (df : DF) (col : String) (j : Nat) (out : DF)
    (hj : df.cols.indexOf? col = some j)
    (hc : clean_ned_column df col = some out) :
    (∀ (i : Nat) (r : List String), df.rows[i]? = some r →
        i < df.rows.length - 15 →
        hasDigit (pyStrip (cell r j)) = false →
        emptyLike (pyStrip (cell r j)) = false →
        r.set j (pyStrip (cell r j)) ∈ out.rows) ∧
    (df.rows.length < 15 → ∀ r' ∈ out.rows, hasDigit (cell r' j) = true) := by
  rw [clean_eq df col j hj] at hc
  have hout : out = ⟨df.cols, cleanRowsAux df.rows.length j 0 df.rows⟩ :=
    (Option.some.inj hc).symm
  constructor
  · intro i r hi hpos _ hemp
    have hk : keepRow df.rows.length j i r = true := by
      have hdec : decide (df.rows.length - 15 ≤ i) = false := by
        simp only [decide_eq_false_iff_not]
        omega
      simp only [keepRow, hemp, hdec, Bool.false_or, Bool.and_false, Bool.not_false]
    rw [hout]
    exact set_mem_cleanRowsAux df.rows.length j df.rows 0 i r hi
      (by simpa using hk)
  · intro hlt r' hr'
    rw [hout] at hr'
    exact hasDigit_of_mem_cleanRowsAux df.rows.length j (by omega) df.rows 0 r' hr'

/-- Claim C10: every row whose stripped identifier contains a decimal digit
is kept by cleaning regardless of position, and appears in the output with
the identifier replaced by its trimmed text. -/
theorem digit_rows_kept (df : DF) (col : String) (j : Nat) (out : DF)
    (hj : df.cols.indexOf? col = some j)
    (hc : clean_ned_column df col = some out) :
    ∀ (i : Nat) (r : List String), df.rows[i]? = some r →
      hasDigit (pyStrip (cell r j)) = true →
      r.set j (pyStrip (cell r j)) ∈ out.rows := by
  rw [clean_eq df col j hj] at hc
  have hout : out = ⟨df.cols, cleanRowsAux df.rows.length j 0 df.rows⟩ :=
    (Option.some.inj hc).symm
  intro i r hi hd
  have hemp : emptyLike (pyStrip (cell r j)) = false := by
    cases he : emptyLike (pyStrip (cell r j)) with
    | false => rfl
    | true =>
      have := emptyLike_no_digit _ he
      rw [this] at hd
      exact Bool.noConfusion hd
  have hk : keepRow df.rows.length j i r = true := by
    simp [keepRow, hemp, hd]
  rw [hout]
  exact set_mem_cleanRowsAux df.rows.length j df.rows 0 i r hi (by simpa using hk)

/-- A 16-row table: a digit-free identifier in row 0 (outside the footer
zone of the 16-row table), one empty-like row, and 14 numeric rows. -/
def exC4 : DF :=
  ⟨["ned"], [["abc"], ["nan"], ["1"], ["2"], ["3"], ["4"], ["5"], ["6"], ["7"],
             ["8"], ["9"], ["10"], ["11"], ["12"], ["13"], ["14"]]⟩

/-- The cleaned form of `exC4`: the empty-like row is gone, the digit-free
row 0 survived because it was outside the original footer zone. -/
def exC4clean : DF :=
  ⟨["ned"], [["abc"], ["1"], ["2"], ["3"], ["4"], ["5"], ["6"], ["7"],
             ["8"], ["9"], ["10"], ["11"], ["12"], ["13"], ["14"]]⟩

/-- Claim C4 counterexample: cleaning is not idempotent. Cleaning `exC4`
keeps the digit-free row `["abc"]` (position 0 of 16 is outside the footer
zone), but the cleaned table has 15 rows, so on a second pass the footer
zone is the whole table and `["abc"]` is removed. -/
theorem clean_not_idempotent :
    ((clean_ned_column exC4 "ned").bind fun d => clean_ned_column d "ned")
      ≠ clean_ned_column exC4 "ned" := by decide

/-- Claim C4 (amended): cleaning an already-cleaned table is the identity
provided every kept digit-free identifier lies outside the last-15-row
footer zone of the cleaned (possibly shorter) table — in particular when no
rows were removed, or when every kept identifier contains a digit. -/
theorem clean_idem_of_digitfree_outside_footer (df : DF) (col : String)
    (j : Nat) (out : DF)
    (hj : df.cols.indexOf? col = some j)
    (hc : clean_ned_column df col = some out)
    (hfoot : ∀ (i : Nat) (r' : List String), out.rows[i]? = some r' →
      hasDigit (cell r' j) = false → i < out.rows.length - 15) :
    clean_ned_column out col = some out := by
  rw [clean_eq df col j hj] at hc
  have hout : out = ⟨df.cols, cleanRowsAux df.rows.length j 0 df.rows⟩ :=
    (Option.some.inj hc).symm
  have hj' : out.cols.indexOf? col = some j := by
    rw [hout]
    exact hj
  rw [clean_eq out col j hj']
  have hfix : cleanRowsAux out.rows.length j 0 out.rows = out.rows := by
    refine cleanRowsAux_fix out.rows.length j out.rows 0 ?_ ?_
    · intro r' hr'
      rw [hout] at hr'
      exact mem_cleanRowsAux_inv df.rows.length j df.rows 0 r' hr'
    · intro k r' hk hd
      have := hfoot k r' hk hd
      omega
  rw [hfix]

/-- A 2-row all-digit table, fixed by cleaning. -/
def exC4b : DF := ⟨["ned"], [["a1"], ["b2"]]⟩

/-- Witness for the amended claim C4 at the concrete table `exC4b`. -/
theorem clean_idem_witness : clean_ned_column exC4b "ned" = some exC4b := by
  refine clean_idem_of_digitfree_outside_footer exC4b "ned" 0 exC4b
    (by decide) (by decide) ?_
  intro i r' hi hd
  have hmem : r' ∈ exC4b.rows := List.getElem?_mem hi
  have : r' = ["a1"] ∨ r' = ["b2"] := by simpa [exC4b] using hmem
  rcases this with rfl | rfl
  · exact absurd hd (by decide)
  · exact absurd hd (by decide)

/-- Witness for claim C2 at `exC4`: the digit-free row `["abc"]` at
position 0 (outside the footer zone of the 16-row table) is kept. -/
theorem footer_rule_scope_witness :
    (["abc"] : List String).set 0 (pyStrip (cell ["abc"] 0)) ∈ exC4clean.rows :=
  (footer_rule_scope exC4 "ned" 0 exC4clean (by decide) (by decide)).1
    0 ["abc"] (by decide) (by decide) (by decide) (by decide)

/-- Witness for claim C3 at `exC4`: the output row `["abc"]` is not
empty-like (and the empty-like row `["nan"]` is gone from `exC4clean`). -/
theorem empty_like_rows_removed_witness : emptyLike (cell ["abc"] 0) = false :=
  empty_like_rows_removed exC4 "ned" 0 exC4clean (by decide) (by decide)
    ["abc"] (by decide)

/-- Witness for claim C10 at `exC4`: the numeric row `["1"]` is kept. -/
theorem digit_rows_kept_witness :
    (["1"] : List String).set 0 (pyStrip (cell ["1"] 0)) ∈ exC4clean.rows :=
  digit_rows_kept exC4 "ned" 0 exC4clean (by decide) (by decide)
    2 ["1"] (by decide) (by decide)

/-! ### The reconciler of `generate` -/

/-- `df[col]`: the values of one column, none when the column is absent. -/
def colVals (df : DF) (col : String) : Option (List String) :=
  (df.cols.indexOf? col).map fun j => df.rows.map fun r => cell r j

/-- `a[~a[idA].isin(b[idB])]`: the rows of `a` whose identifier value does
not occur in `b`'s identifier column. -/
def missingRows (a : DF) (idA : String) (b : DF) (idB : String) :
    Option (List (List String)) :=
  (a.cols.indexOf? idA).bind fun ja =>
    (colVals b idB).map fun bv =>
      a.rows.filter fun r => !bv.contains (cell r ja)

theorem count_filter_bool {α : Type} [BEq α] [LawfulBEq α]
    (p : α → Bool) (l : List α) (a : α) :
    (l.filter p).count a = if p a = true then l.count a else 0 := by
  by_cases hpa : p a = true
  · rw [if_pos hpa]
    exact List.count_filter hpa
  · rw [if_neg hpa]
    refine List.count_eq_zero.mpr fun hmem => ?_
    rw [List.mem_filter] at hmem
    exact hpa hmem.2

theorem length_filter_not_add {α : Type} (p : α → Bool) (l : List α) :
    (l.filter fun x => !p x).length + (l.filter p).length = l.length := by
  induction l with
  | nil => rfl
  | cons x xs ih =>
    cases hx : p x with
    | true =>
      simp [List.filter_cons, hx]
      omega
    | false =>
      simp [List.filter_cons, hx]
      omega

theorem missingRows_eq (a : DF) (idA : String) (b : DF) (idB : String)
    (ja : Nat) (bv : List String) (m : List (List String))
    (hja : a.cols.indexOf? idA = some ja) (hbv : colVals b idB = some bv)
    (hm : missingRows a idA b idB = some m) :
    m = a.rows.filter fun r => !bv.contains (cell r ja) := by
  unfold missingRows at hm
  rw [hja, hbv] at hm
  simp only [Option.some_bind, Option.map_some'] at hm
  exact (Option.some.inj hm).symm

/-- Claim C1: `missingInSecond` holds exactly the rows of A whose identifier
is absent from B's identifier column, by exact string equality, one output
row per occurrence (and symmetrically for `missingInFirst`): each candidate
row's multiplicity is its multiplicity in A when its identifier misses B,
and zero when B contains the identifier. -/
theorem reconciler_missing_spec (a b : DF) (idA idB : String) (ja jb : Nat)
    (av bv : List String) (m1 m2 : List (List String))
    (hja : a.cols.indexOf? idA = some ja) (hjb : b.cols.indexOf? idB = some jb)
    (hav : colVals a idA = some av) (hbv : colVals b idB = some bv)
    (h1 : missingRows a idA b idB = some m1)
    (h2 : missingRows b idB a idA = some m2) :
    (∀ r, m1.count r
        = if bv.contains (cell r ja) = true then 0 else a.rows.count r) ∧
    (∀ r, m2.count r
        = if av.contains (cell r jb) = true then 0 else b.rows.count r) := by
  rw [missingRows_eq a idA b idB ja bv m1 hja hbv h1,
    missingRows_eq b idB a idA jb av m2 hjb hav h2]
  constructor
  · intro r
    rw [count_filter_bool]
    cases hcon : bv.contains (cell r ja) with
    | true => simp [hcon]
    | false => simp [hcon]
  · intro r
    rw [count_filter_bool]
    cases hcon : av.contains (cell r jb) with
    | true => simp [hcon]
    | false => simp [hcon]

/-- Claim C6: the reconciler partitions the rows of A — the missing rows
plus the rows whose identifier is present in B's column are all of A. -/
theorem reconciler_partition (a b : DF) (idA idB : String) (ja : Nat)
    (bv : List String) (m1 : List (List String))
    (hja : a.cols.indexOf? idA = some ja) (hbv : colVals b idB = some bv)
    (h1 : missingRows a idA b idB = some m1) :
    m1.length + (a.rows.filter fun r => bv.contains (cell r ja)).length
      = a.rows.length := by
  rw [missingRows_eq a idA b idB ja bv m1 hja hbv h1]
  exact length_filter_not_add (fun r => bv.contains (cell r ja)) a.rows

/-- POB-side sample table: identifier column "ned", name column "name". -/
def dfA : DF := ⟨["ned", "name"], [["P001", "Alice"], ["P002", "Bob"]]⟩

/-- Portal-side sample table: identifier column "sc", name column "nm". -/
def dfB : DF := ⟨["sc", "nm"], [["P002", "Bea"], ["P003", "Cal"]]⟩

/-- Witness for claim C1 on the sample tables: the row `["P001","Alice"]`
appears once among the missing rows, matching its multiplicity in A. -/
theorem reconciler_missing_spec_witness :
    ([["P001", "Alice"]] : List (List String)).count ["P001", "Alice"]
      = if (["P002", "P003"] : List String).contains (cell ["P001", "Alice"] 0) = true
        then 0 else dfA.rows.count ["P001", "Alice"] :=
  (reconciler_missing_spec dfA dfB "ned" "sc" 0 0 ["P001", "P002"]
      ["P002", "P003"] [["P001", "Alice"]] [["P003", "Cal"]]
      (by decide) (by decide) (by decide) (by decide) (by decide) (by decide)).1
    ["P001", "Alice"]

/-- Witness for claim C6 on the sample tables: 1 missing row + 1 matched
row = 2 rows of A. -/
theorem reconciler_partition_witness :
    ([["P001", "Alice"]] : List (List String)).length
      + (dfA.rows.filter fun r =>
          (["P002", "P003"] : List String).contains (cell r 0)).length
      = dfA.rows.length :=
  reconciler_partition dfA dfB "ned" "sc" 0 ["P002", "P003"]
    [["P001", "Alice"]] (by decide) (by decide) (by decide)

/-! ### The duplicate detector of `check_duplicates` -/

/-- Pandas `Series.duplicated(keep=False)` on a list of values: the flag of
an element is true when the value occurs earlier (`seen`) or later
(`rest`). -/
def dupAux : List String → List String → List Bool
  | _, [] => []
  | seen, x :: rest => (seen.contains x || rest.contains x) :: dupAux (x :: seen) rest

/-- `s.duplicated(keep=False)`: flag every member of a duplicate group. -/
def duplicatedKeepFalse (l : List String) : List Bool :=
  dupAux [] l

/-- Lines 185–189: the per-row duplicate mask of the selected identifier
column, and its `.any()` aggregate. -/
def checkDuplicates (df : DF) (col : String) : Option (List Bool × Bool) :=
  (colVals df col).map fun v =>
    (duplicatedKeepFalse v, (duplicatedKeepFalse v).any id)

theorem dupAux_getD : ∀ (rest seen : List String) (i : Nat),
    ((dupAux seen rest).getD i false = true ↔
      (i < rest.length ∧
        (seen.contains (rest.getD i "") = true ∨ 2 ≤ rest.count (rest.getD i "")))) := by
  intro rest
  induction rest with
  | nil =>
    intro seen i
    simp [dupAux]
  | cons x xs ih =>
    intro seen i
    cases i with
    | zero =>
      simp only [dupAux, List.getD_cons_zero, List.length_cons,
        List.count_cons_self, Bool.or_eq_true]
      constructor
      · rintro (h | h)
        · exact ⟨Nat.succ_pos _, Or.inl h⟩
        · have hx : x ∈ xs := by simpa [List.contains, List.elem_iff] using h
          have hpos : 0 < xs.count x := List.count_pos_iff.mpr hx
          exact ⟨Nat.succ_pos _, Or.inr (by omega)⟩
      · rintro ⟨-, h | h⟩
        · exact Or.inl h
        · have hpos : 0 < xs.count x := by omega
          have hx : x ∈ xs := List.count_pos_iff.mp hpos
          exact Or.inr (by simpa [List.contains, List.elem_iff] using hx)
    | succ k =>
      simp only [dupAux, List.getD_cons_succ, List.length_cons]
      rw [ih (x :: seen) k]
      by_cases hxy : xs.getD k "" = x
      · constructor
        · rintro ⟨hk, -⟩
          refine ⟨by omega, Or.inr ?_⟩
          have hx : xs.getD k "" ∈ xs := by
            rw [List.getD_eq_getElem _ _ hk]
            exact List.getElem_mem hk
          have hpos : 0 < xs.count (xs.getD k "") := List.count_pos_iff.mpr hx
          rw [hxy] at hpos ⊢
          rw [List.count_cons_self]
          omega
        · rintro ⟨hk, -⟩
          refine ⟨by omega, Or.inl ?_⟩
          rw [hxy]
          simp [List.contains, List.elem_iff]
      · have hcont : ((x :: seen).contains (xs.getD k "") = true)
            ↔ (seen.contains (xs.getD k "") = true) := by
          constructor
          · intro h
            have hmem : xs.getD k "" ∈ x :: seen := by
              simpa [List.contains, List.elem_iff] using h
            rcases List.mem_cons.mp hmem with heq | hmem'
            · exact absurd heq hxy
            · simpa [List.contains, List.elem_iff] using hmem'
          · intro h
            have hmem : xs.getD k "" ∈ seen := by
              simpa [List.contains, List.elem_iff] using h
            simpa [List.contains, List.elem_iff] using List.mem_cons_of_mem x hmem
        have hcnt : (x :: xs).count (xs.getD k "") = xs.count (xs.getD k "") :=
          List.count_cons_of_ne hxy xs
        constructor
        · rintro ⟨hk, h⟩
          refine ⟨by omega, ?_⟩
          rw [hcnt]
          rcases h with h | h
          · exact Or.inl (hcont.mp h)
          · exact Or.inr h
        · rintro ⟨hk, h⟩
          refine ⟨by omega, ?_⟩
          rw [hcnt] at h
          rcases h with h | h
          · exact Or.inl (hcont.mpr h)
          · exact Or.inr h

theorem any_id_getD : ∀ (bs : List Bool),
    (bs.any id = true ↔ ∃ i, bs.getD i false = true) := by
  intro bs
  induction bs with
  | nil => simp
  | cons b bs ih =>
    cases b with
    | true =>
      simp only [List.any_cons, id, Bool.true_or]
      exact ⟨fun _ => ⟨0, by simp⟩, fun _ => by trivial⟩
    | false =>
      simp only [List.any_cons, id, Bool.false_or]
      rw [ih]
      constructor
      · rintro ⟨i, hi⟩
        exact ⟨i + 1, by simpa using hi⟩
      · rintro ⟨i, hi⟩
        cases i with
        | zero => simp at hi
        | succ k => exact ⟨k, by simpa using hi⟩

/-- Claim C5: the duplicate detector flags a row exactly when its identifier
value occurs at least twice in the column (all occurrences flagged), and the
aggregate boolean is true exactly when some row is flagged. -/
theorem checkDuplicates_spec (df : DF) (col : String) (v : List String)
    (flags : List Bool) (agg : Bool)
    (hv : colVals df col = some v)
    (hc : checkDuplicates df col = some (flags, agg)) :
    (∀ i, (flags.getD i false = true ↔
        (i < v.length ∧ 2 ≤ v.count (v.getD i "")))) ∧
    (agg = true ↔ ∃ i, flags.getD i false = true) := by
  unfold checkDuplicates at hc
  rw [hv] at hc
  simp only [Option.map_some'] at hc
  have hpair := Option.some.inj hc
  have hf : duplicatedKeepFalse v = flags := congrArg Prod.fst hpair
  have ha : (duplicatedKeepFalse v).any id = agg := congrArg Prod.snd hpair
  subst hf
  subst ha
  constructor
  · intro i
    unfold duplicatedKeepFalse
    rw [dupAux_getD v [] i]
    simp [List.contains]
  · exact any_id_getD _

/-- A table in which identifier `P010` occurs twice. -/
def dfDup : DF := ⟨["ned"], [["P010"], ["P010"], ["P011"]]⟩

/-- Witness for claim C5 at `dfDup`: the first occurrence of the repeated
value `P010` is flagged, because the value occurs twice. -/
theorem checkDuplicates_spec_witness :
    ([true, true, false] : List Bool).getD 0 false = true ↔
      (0 < (["P010", "P010", "P011"] : List String).length ∧
        2 ≤ (["P010", "P010", "P011"] : List String).count
          ((["P010", "P010", "P011"] : List String).getD 0 "")) :=
  (checkDuplicates_spec dfDup "ned" ["P010", "P010", "P011"]
      [true, true, false] true (by decide) (by decide)).1 0

/-! ### The report builder of `generate` -/

/-- The fourteen `inputs[...]` fields read while building the reports. -/
structure UserVals where
  rfm_category : String
  vendor_code : String
  vendor_name : String
  gender : String
  rfm_origin : String
  rfm_destination : String
  charge : String
  passenger_weight : String
  baggage_weight : String
  time_reported : String
  return_category : String
  supplier : String
  return_origin : String
  return_destination : String
deriving DecidableEq, Repr

/-- The required user-input keys, in first-access order. -/
def requiredKeys : List String :=
  ["rfm_category", "vendor_code", "vendor_name", "gender", "rfm_origin",
   "rfm_destination", "charge", "passenger_weight", "baggage_weight",
   "time_reported", "return_category", "supplier", "return_origin",
   "return_destination"]

/-- Read the fourteen required fields from the form dictionary; a missing
key is a `KeyError`, modelled as `none`. -/
def getInputs (inputs : String → Option String) : Option UserVals :=
  (inputs "rfm_category").bind fun rfm_category =>
  (inputs "vendor_code").bind fun vendor_code =>
  (inputs "vendor_name").bind fun vendor_name =>
  (inputs "gender").bind fun gender =>
  (inputs "rfm_origin").bind fun rfm_origin =>
  (inputs "rfm_destination").bind fun rfm_destination =>
  (inputs "charge").bind fun charge =>
  (inputs "passenger_weight").bind fun passenger_weight =>
  (inputs "baggage_weight").bind fun baggage_weight =>
  (inputs "time_reported").bind fun time_reported =>
  (inputs "return_category").bind fun return_category =>
  (inputs "supplier").bind fun supplier =>
  (inputs "return_origin").bind fun return_origin =>
  (inputs "return_destination").bind fun return_destination =>
  some ⟨rfm_category, vendor_code, vendor_name, gender, rfm_origin,
    rfm_destination, charge, passenger_weight, baggage_weight, time_reported,
    return_category, supplier, return_origin, return_destination⟩

/-- An output report table: an ordered sequence of (column name, column
values) pairs — order-significant, names need not be unique. -/
abbrev ReportTable : Type := List (String × List String)

/-- The `rfm` DataFrame literal: per-row identifier and name columns from
the missing rows, everything else broadcast from the user inputs. -/
def rfmTable (u : UserVals) (m1 : List (List String)) (ja jan : Nat) : ReportTable :=
  [("Passenger Category", List.replicate m1.length u.rfm_category),
   ("NED Pass No.", m1.map fun r => cell r ja),
   ("Travelling Vendor Code", List.replicate m1.length u.vendor_code),
   ("Vendor Name", List.replicate m1.length u.vendor_name),
   ("Vendor Employee Name", m1.map fun r => cell r jan),
   ("Gender", List.replicate m1.length u.gender),
   ("Designation", List.replicate m1.length ""),
   ("Originating Point", List.replicate m1.length u.rfm_origin),
   ("Destination Point", List.replicate m1.length u.rfm_destination),
   ("", List.replicate m1.length ""),
   ("Charge", List.replicate m1.length u.charge)]

/-- The `manifest` DataFrame literal: all-uniform columns broadcast over
`rfm`'s index (`index=rfm.index`), with three blank spacer columns. -/
def manifestTable (u : UserVals) (m1 : List (List String)) : ReportTable :=
  [("Passenger Weight", List.replicate m1.length u.passenger_weight),
   ("Baggage Weight", List.replicate m1.length u.baggage_weight),
   ("", List.replicate m1.length ""),
   (" ", List.replicate m1.length ""),
   ("  ", List.replicate m1.length ""),
   ("Time Reported", List.replicate m1.length u.time_reported)]

/-- The `return_manifest` DataFrame literal. -/
def returnTable (u : UserVals) (m2 : List (List String)) (jb jbn : Nat) : ReportTable :=
  [("Passenger Category", List.replicate m2.length u.return_category),
   ("Smart Card No.", m2.map fun r => cell r jb),
   ("Supplier", List.replicate m2.length u.supplier),
   ("Vendor Employee Name", m2.map fun r => cell r jbn),
   ("Gender", List.replicate m2.length u.gender),
   ("Designation", List.replicate m2.length ""),
   ("", List.replicate m2.length ""),
   ("Charge", List.replicate m2.length u.charge),
   ("Pax wt.", List.replicate m2.length u.passenger_weight),
   ("Baggage", List.replicate m2.length u.baggage_weight),
   ("Originating Point", List.replicate m2.length u.return_origin),
   ("Destination Point", List.replicate m2.length u.return_destination)]

/-- The report-building core of `generate`: resolve the four selected
columns, compute the two missing-row sets, read the user inputs, and build
the three report tables. Any missing column or missing input key fails. -/
def buildReports (inputs : String → Option String) (a : DF) (idA nameA : String)
    (b : DF) (idB nameB : String) :
    Option (ReportTable × ReportTable × ReportTable) :=
  (a.cols.indexOf? idA).bind fun ja =>
  (a.cols.indexOf? nameA).bind fun jan =>
  (b.cols.indexOf? idB).bind fun jb =>
  (b.cols.indexOf? nameB).bind fun jbn =>
  (missingRows a idA b idB).bind fun m1 =>
  (missingRows b idB a idA).bind fun m2 =>
  (getInputs inputs).bind fun u =>
  some (rfmTable u m1 ja jan, manifestTable u m1, returnTable u m2 jb jbn)

/-! ### The serialization contract for report tables -/

/-- Write a report table through the fixed column-order contract: a header
row in column order followed by the data rows, no index column. -/
def toGrid (t : ReportTable) : List (List String) :=
  (t.map Prod.fst) :: (t.map Prod.snd).transpose

/-- Read columns back: each header name, in order, names the column of
cells at its position in each data row. -/
def ofGridAux (rows : List (List String)) : List String → Nat → ReportTable
  | [], _ => []
  | name :: names, i =>
    (name, rows.map fun r => cell r i) :: ofGridAux rows names (i + 1)

/-- Read a written grid back into a report table. -/
def ofGrid : List (List String) → ReportTable
  | [] => []
  | h :: rows => ofGridAux rows h 0

theorem ofGridAux_names (rows : List (List String)) :
    ∀ (names : List String) (i : Nat),
      (ofGridAux rows names i).map Prod.fst = names := by
  intro names
  induction names with
  | nil => intro i; rfl
  | cons n ns ih =>
    intro i
    simp only [ofGridAux, List.map_cons, ih]

theorem ofGrid_toGrid_names (t : ReportTable) :
    (ofGrid (toGrid t)).map Prod.fst = t.map Prod.fst := by
  simp only [toGrid, ofGrid]
  exact ofGridAux_names _ _ 0

/-! ### Claims about the report builder -/

theorem rfmTable_col_lengths (u : UserVals) (m1 : List (List String)) (ja jan : Nat) :
    ∀ c ∈ rfmTable u m1 ja jan, c.2.length = m1.length := by
  intro c hc
  simp only [rfmTable, List.mem_cons, List.not_mem_nil, or_false] at hc
  rcases hc with rfl | rfl | rfl | rfl | rfl | rfl | rfl | rfl | rfl | rfl | rfl <;> simp

theorem manifestTable_col_lengths (u : UserVals) (m1 : List (List String)) :
    ∀ c ∈ manifestTable u m1, c.2.length = m1.length := by
  intro c hc
  simp only [manifestTable, List.mem_cons, List.not_mem_nil, or_false] at hc
  rcases hc with rfl | rfl | rfl | rfl | rfl | rfl <;> simp

theorem returnTable_col_lengths (u : UserVals) (m2 : List (List String)) (jb jbn : Nat) :
    ∀ c ∈ returnTable u m2 jb jbn, c.2.length = m2.length := by
  intro c hc
  simp only [returnTable, List.mem_cons, List.not_mem_nil, or_false] at hc
  rcases hc with rfl | rfl | rfl | rfl | rfl | rfl | rfl | rfl | rfl | rfl | rfl | rfl <;> simp

/-- Invert a successful `buildReports` into its constituents. -/
theorem buildReports_inv (inputs : String → Option String) (a b : DF)
    (idA nameA idB nameB : String) (rfm man ret : ReportTable)
    (hb : buildReports inputs a idA nameA b idB nameB = some (rfm, man, ret)) :
    ∃ (ja jan jb jbn : Nat) (m1 m2 : List (List String)) (u : UserVals),
      a.cols.indexOf? idA = some ja ∧ a.cols.indexOf? nameA = some jan ∧
      b.cols.indexOf? idB = some jb ∧ b.cols.indexOf? nameB = some jbn ∧
      missingRows a idA b idB = some m1 ∧ missingRows b idB a idA = some m2 ∧
      getInputs inputs = some u ∧
      rfm = rfmTable u m1 ja jan ∧ man = manifestTable u m1 ∧
      ret = returnTable u m2 jb jbn := by
  unfold buildReports at hb
  simp only [Option.bind_eq_some] at hb
  obtain ⟨ja, hja, jan, hjan, jb, hjb, jbn, hjbn, m1, hm1, m2, hm2, u, hu, htrip⟩ := hb
  have h := Option.some.inj htrip
  simp only [Prod.mk.injEq] at h
  obtain ⟨h1, h2, h3⟩ := h
  exact ⟨ja, jan, jb, jbn, m1, m2, u, hja, hjan, hjb, hjbn, hm1, hm2, hu,
    h1.symm, h2.symm, h3.symm⟩

/-- Claim C7: the RFM and Manifest tables each have exactly one row per
`missingInSecond` entry (Manifest being broadcast over RFM's index, hence
row-aligned with it), and the Return Manifest has one row per
`missingInFirst` entry — in every column, also when the row sets are
empty. -/
theorem report_row_counts (inputs : String → Option String) (a b : DF)
    (idA nameA idB nameB : String) (m1 m2 : List (List String))
    (rfm man ret : ReportTable)
    (h1 : missingRows a idA b idB = some m1)
    (h2 : missingRows b idB a idA = some m2)
    (hb : buildReports inputs a idA nameA b idB nameB = some (rfm, man, ret)) :
    (∀ c ∈ rfm, c.2.length = m1.length) ∧
    (∀ c ∈ man, c.2.length = m1.length) ∧
    (∀ c ∈ ret, c.2.length = m2.length) := by
  obtain ⟨ja, jan, jb, jbn, m1', m2', u, -, -, -, -, hm1, hm2, -, hr, hm, hret⟩ :=
    buildReports_inv inputs a b idA nameA idB nameB rfm man ret hb
  rw [h1] at hm1
  rw [h2] at hm2
  obtain rfl : m1 = m1' := Option.some.inj hm1
  obtain rfl : m2 = m2' := Option.some.inj hm2
  subst hr hm hret
  exact ⟨rfmTable_col_lengths u m1 ja jan, manifestTable_col_lengths u m1,
    returnTable_col_lengths u m2 jb jbn⟩

/-- Claim C8: writing each report table through the fixed column-order
contract and reading it back yields identical column names in identical
order; the Manifest's blank and whitespace-only spacer names are pairwise
distinct entries, so the spacer columns do not collapse. -/
theorem report_roundtrip (inputs : String → Option String) (a b : DF)
    (idA nameA idB nameB : String) (rfm man ret : ReportTable)
    (hb : buildReports inputs a idA nameA b idB nameB = some (rfm, man, ret)) :
    ((ofGrid (toGrid rfm)).map Prod.fst = rfm.map Prod.fst ∧
     (ofGrid (toGrid man)).map Prod.fst = man.map Prod.fst ∧
     (ofGrid (toGrid ret)).map Prod.fst = ret.map Prod.fst) ∧
    man.map Prod.fst
      = ["Passenger Weight", "Baggage Weight", "", " ", "  ", "Time Reported"] ∧
    (("" : String) ≠ " " ∧ ("" : String) ≠ "  " ∧ (" " : String) ≠ "  ") := by
  obtain ⟨ja, jan, jb, jbn, m1', m2', u, -, -, -, -, -, -, -, -, hm, -⟩ :=
    buildReports_inv inputs a b idA nameA idB nameB rfm man ret hb
  refine ⟨⟨ofGrid_toGrid_names rfm, ofGrid_toGrid_names man, ofGrid_toGrid_names ret⟩,
    ?_, by decide, by decide, by decide⟩
  subst hm
  rfl

/-- Claim C9: if any required user-input key is absent, report building
fails (`KeyError`), producing no report table — never a silent blank. -/
theorem missing_field_fails (inputs : String → Option String) (a b : DF)
    (idA nameA idB nameB : String) (k : String)
    (hk : k ∈ requiredKeys) (hnone : inputs k = none) :
    buildReports inputs a idA nameA b idB nameB = none := by
  have hbn : ∀ {α β : Type} (o : Option α),
      (o.bind fun _ => (none : Option β)) = none := by
    intro α β o
    cases o <;> rfl
  have hgi : getInputs inputs = none := by
    simp only [requiredKeys, List.mem_cons, List.not_mem_nil, or_false] at hk
    rcases hk with rfl | rfl | rfl | rfl | rfl | rfl | rfl | rfl | rfl | rfl |
      rfl | rfl | rfl | rfl <;>
      simp only [getInputs, hnone, Option.none_bind, hbn]
  simp only [buildReports, hgi, Option.none_bind, hbn]

/-- All fourteen user fields present, each with the value `"x"`. -/
def inputsAll : String → Option String := fun _ => some "x"

/-- All fields present except `supplier`. -/
def inputsMissing : String → Option String :=
  fun k => if k = "supplier" then none else some "x"

/-- The RFM table produced for the sample tables and `inputsAll`. -/
def rfmV : ReportTable :=
  [("Passenger Category", ["x"]), ("NED Pass No.", ["P001"]),
   ("Travelling Vendor Code", ["x"]), ("Vendor Name", ["x"]),
   ("Vendor Employee Name", ["Alice"]), ("Gender", ["x"]),
   ("Designation", [""]), ("Originating Point", ["x"]),
   ("Destination Point", ["x"]), ("", [""]), ("Charge", ["x"])]

/-- The Manifest table produced for the sample tables and `inputsAll`. -/
def manV : ReportTable :=
  [("Passenger Weight", ["x"]), ("Baggage Weight", ["x"]), ("", [""]),
   (" ", [""]), ("  ", [""]), ("Time Reported", ["x"])]

/-- The Return Manifest produced for the sample tables and `inputsAll`. -/
def retV : ReportTable :=
  [("Passenger Category", ["x"]), ("Smart Card No.", ["P003"]),
   ("Supplier", ["x"]), ("Vendor Employee Name", ["Cal"]), ("Gender", ["x"]),
   ("Designation", [""]), ("", [""]), ("Charge", ["x"]), ("Pax wt.", ["x"]),
   ("Baggage", ["x"]), ("Originating Point", ["x"]),
   ("Destination Point", ["x"])]

/-- Witness for claim C7 on the sample run: one row everywhere. -/
theorem report_row_counts_witness :
    (∀ c ∈ rfmV, c.2.length = ([["P001", "Alice"]] : List (List String)).length) ∧
    (∀ c ∈ manV, c.2.length = ([["P001", "Alice"]] : List (List String)).length) ∧
    (∀ c ∈ retV, c.2.length = ([["P003", "Cal"]] : List (List String)).length) :=
  report_row_counts inputsAll dfA dfB "ned" "name" "sc" "nm"
    [["P001", "Alice"]] [["P003", "Cal"]] rfmV manV retV
    (by decide) (by decide) (by decide)

/-- Witness for claim C8 on the sample run. -/
theorem report_roundtrip_witness :
    ((ofGrid (toGrid rfmV)).map Prod.fst = rfmV.map Prod.fst ∧
     (ofGrid (toGrid manV)).map Prod.fst = manV.map Prod.fst ∧
     (ofGrid (toGrid retV)).map Prod.fst = retV.map Prod.fst) ∧
    manV.map Prod.fst
      = ["Passenger Weight", "Baggage Weight", "", " ", "  ", "Time Reported"] ∧
    (("" : String) ≠ " " ∧ ("" : String) ≠ "  " ∧ (" " : String) ≠ "  ") :=
  report_roundtrip inputsAll dfA dfB "ned" "name" "sc" "nm" rfmV manV retV
    (by decide)

/-- Witness for claim C9: with `supplier` absent, no reports are built. -/
theorem missing_field_fails_witness :
    buildReports inputsMissing dfA "ned" "name" dfB "sc" "nm" = none :=
  missing_field_fails inputsMissing dfA dfB "ned" "name" "sc" "nm" "supplier"
    (by decide) (by decide)

end EPECpob
